import Mathlib

/-! gobot: the bounded-context conversation manager

A shallow embedding of `ai/chat.go`, `ai/ai.go` and `ai/commands.go`, and of
`sendOllamaMessage` of `internal/services/ai_client.go`.

Modelling conventions
* A Go `string` is a Lean `String`; `len(s)` is the number of bytes of the
  UTF-8 encoding, `String.utf8ByteSize`.
* A Go `int` is a Lean `Int`.  The only arithmetic on `int` in the embedded
  code is `len(text) / 4`, the running sum `TokenCount` of such quotients over
  messages held in memory, and comparisons, so no operation can leave the
  64-bit range.
* `time.Time` is a natural number, the zero time being `0`.  Every reading of
  `time.Now()` is an explicit argument.
* Terminal output (`fmt.Print...`, the colour printers) is not part of the
  state and is left out.
-/

namespace Gobot

/-- Go `time.Time`; the zero value is `0`. -/
abbrev GoTime := Nat

/-- `ChatMessage` of `ai/chat.go`. -/
structure ChatMessage where
  Role : String
  Content : String
  Time : GoTime
deriving DecidableEq, Repr

/-- `SmartConversation` of `ai/chat.go`. -/
structure SmartConversation where
  ID : String
  Name : String
  Messages : List ChatMessage
  Model : String
  MaxTokens : Int
  TokenCount : Int
  Created : GoTime
  LastUsed : GoTime
deriving DecidableEq, Repr

/-- `estimateTokens`: `len(text) / 4` (Go integer division truncates). -/
def estimateTokens (text : String) : Int :=
  Int.tdiv (text.utf8ByteSize : Int) 4

/-- One iteration of the loop body of `trimToFitContext`: the message at
`startIdx` is cut out of the slice and its estimate is subtracted. -/
def trimStep (startIdx : Nat) (c : SmartConversation)
    (h : c.Messages.length > startIdx + 2) : SmartConversation :=
  let removedMsg := c.Messages.get ⟨startIdx, by omega⟩
  { c with
    Messages := c.Messages.take startIdx ++ c.Messages.drop (startIdx + 1)
    TokenCount := c.TokenCount - estimateTokens removedMsg.Content }

/-- The `for` loop of `trimToFitContext`, run for at most `fuel` iterations. -/
def trimLoop (startIdx : Nat) : Nat → SmartConversation → SmartConversation
  | 0, c => c
  | fuel + 1, c =>
    if h : c.TokenCount > c.MaxTokens ∧ c.Messages.length > startIdx + 2 then
      trimLoop startIdx fuel (trimStep startIdx c h.2)
    else c

/-- The `systemMsgExists` test of `trimToFitContext`:
`len(c.Messages) > 0 && c.Messages[0].Role == "system"`. -/
def systemMsgExists (msgs : List ChatMessage) : Bool :=
  match msgs with
  | [] => false
  | m :: _ => m.Role == "system"

/-- The `startIdx` of `trimToFitContext`. -/
def startIdxOf (msgs : List ChatMessage) : Nat :=
  if systemMsgExists msgs then 1 else 0

/-- `trimToFitContext`.  Each iteration shortens the slice, so
`len(c.Messages)` iterations always suffice (`trimLoop_fuel`). -/
def trimToFitContext (c : SmartConversation) : SmartConversation :=
  if c.TokenCount ≤ c.MaxTokens then c
  else trimLoop (startIdxOf c.Messages) c.Messages.length c

/-- Lines 106-113 of `AddMessage`: the state when the eviction step starts. -/
def appendMessage (c : SmartConversation) (role content : String) (now : GoTime) :
    SmartConversation :=
  let message : ChatMessage := { Role := role, Content := content, Time := now }
  { c with
    Messages := c.Messages ++ [message]
    TokenCount := c.TokenCount + estimateTokens content
    LastUsed := message.Time }

/-- `AddMessage`; `now` is the reading of `time.Now()`. -/
def AddMessage (c : SmartConversation) (role content : String) (now : GoTime) :
    SmartConversation :=
  trimToFitContext (appendMessage c role content now)

/-- `NewSmartConversation`; `created`, `lastUsed` and `now` are the three
readings of `time.Now()`, in the order of the calls. -/
def NewSmartConversation (id name model systemPrompt : String) (maxTokens : Int)
    (created lastUsed now : GoTime) : SmartConversation :=
  let conv : SmartConversation :=
    { ID := id, Name := name, Messages := [], Model := model, MaxTokens := maxTokens,
      TokenCount := 0, Created := created, LastUsed := lastUsed }
  if systemPrompt ≠ "" then AddMessage conv "system" systemPrompt now else conv

/-- The sum of `estimateTokens(m.Content)` over a slice of messages. -/
def sumTokens (msgs : List ChatMessage) : Int :=
  (msgs.map fun m => estimateTokens m.Content).sum

/-- The loop guard of `trimToFitContext`. -/
def loopCond (startIdx : Nat) (c : SmartConversation) : Prop :=
  c.TokenCount > c.MaxTokens ∧ c.Messages.length > startIdx + 2

instance (startIdx : Nat) (c : SmartConversation) : Decidable (loopCond startIdx c) := by
  unfold loopCond; infer_instance

/-- Closed form of `k` loop iterations: the `k` messages at positions
`startIdx .. startIdx + k - 1` are gone and their estimates are subtracted. -/
def evict (startIdx k : Nat) (c : SmartConversation) : SmartConversation :=
  { c with
    Messages := c.Messages.take startIdx ++ c.Messages.drop (startIdx + k)
    TokenCount := c.TokenCount - sumTokens ((c.Messages.drop startIdx).take k) }

/-! ## The inference gateway (`ai/ai.go`) -/

/-- `OllamaRequest`. -/
structure OllamaRequest where
  Model : String
  Messages : List ChatMessage
  Stream : Bool
deriving DecidableEq, Repr

/-- `OllamaResponse`. -/
structure OllamaResponse where
  Message : ChatMessage
deriving DecidableEq, Repr

/-- `OllamaStreamResponse`. -/
structure OllamaStreamResponse where
  Message : ChatMessage
  Done : Bool
deriving DecidableEq, Repr

/-- What `client.Post` hands back when it reports no error: the status code
and the body, the body being given by what `json.Decoder.Decode` yields on it
(`β`).  Transport failures are the `Except.error` of the gateway functions
below. -/
structure HttpResponse (β : Type) where
  StatusCode : Nat
  Body : β

/-- A batch body: the result of the single `Decode(&response)`. -/
abbrev BatchBody := Except String OllamaResponse

/-- A stream body: the results of the successive `Decode(&streamResp)` calls;
past the end of the list `Decode` returns `io.EOF`. -/
abbrev StreamBody := List (Except String OllamaStreamResponse)

/-- The effects of one `SendToOllama...` call: the returned pair
`(response, err)` (`err = none` is Go `nil`), the conversation afterwards and
the request handed to `client.Post`.  (`json.Marshal` cannot fail on an
`OllamaRequest` whose times come from `time.Now()` or are zero, so a request
is always posted.) -/
structure SendOutcome where
  response : String
  err : Option String
  conv : SmartConversation
  posted : OllamaRequest

/-- The zero value of `ChatMessage`. -/
def zeroMessage : ChatMessage := { Role := "", Content := "", Time := 0 }

/-- `getMessagesForAPI`: a fresh slice of `len(c.Messages)` zero messages is
filled index by index.  The method has a pointer receiver; the pair returned
is the slice and the receiver after the call. -/
def getMessagesForAPI (c : SmartConversation) : List ChatMessage × SmartConversation :=
  let apiMessages := List.replicate c.Messages.length zeroMessage
  let apiMessages := c.Messages.enum.foldl
    (fun acc p => acc.set p.1 { Role := p.2.Role, Content := p.2.Content, Time := 0 })
    apiMessages
  (apiMessages, c)

/-- `SendToOllamaBatch`; `now` is the `time.Now()` of the `AddMessage` call. -/
def SendToOllamaBatch (post : OllamaRequest → Except String (HttpResponse BatchBody))
    (c : SmartConversation) (now : GoTime) : SendOutcome :=
  let request : OllamaRequest := { Model := c.Model, Messages := c.Messages, Stream := false }
  match post request with
  | .error err => { response := "", err := some err, conv := c, posted := request }
  | .ok resp =>
    match resp.Body with
    | .error err => { response := "", err := some err, conv := c, posted := request }
    | .ok response =>
      { response := response.Message.Content, err := none,
        conv := AddMessage c "assistant" response.Message.Content now, posted := request }

/-- The decoding loop of `SendToOllamaStream`: `acc` is `fullResponse`. -/
def streamLoop : StreamBody → String → Except String String
  | [], acc => .ok acc
  | .error err :: _, _ => .error ("stream decoding error: " ++ err)
  | .ok streamResp :: rest, acc =>
    let acc := acc ++ streamResp.Message.Content
    if streamResp.Done then .ok acc else streamLoop rest acc

/-- `SendToOllamaStream`. -/
def SendToOllamaStream (post : OllamaRequest → Except String (HttpResponse StreamBody))
    (c : SmartConversation) (now : GoTime) : SendOutcome :=
  let (apiMessages, c) := getMessagesForAPI c
  let request : OllamaRequest := { Model := c.Model, Messages := apiMessages, Stream := true }
  match post request with
  | .error err => { response := "", err := some err, conv := c, posted := request }
  | .ok resp =>
    match streamLoop resp.Body "" with
    | .error err => { response := "", err := some err, conv := c, posted := request }
    | .ok response =>
      { response := response, err := none,
        conv := AddMessage c "assistant" response now, posted := request }

/-! ## The chatbot (`ai/chat.go`, `ai/commands.go`) -/

/-- `Config`. -/
structure Config where
  Model : String
  SystemPrompt : String
  MaxTokens : Int
  StreamMode : Bool
  SaveDir : String
deriving DecidableEq, Repr

/-- A `*SmartConversation`: `none` is `nil`, `some a` is the object at
address `a` of the heap of the chatbot. -/
abbrev ConvPtr := Option Nat

/-- `InteractiveChatbot`.  `heap` holds the `SmartConversation` objects
allocated so far, so that `conversation` and the values of `conversations`
can alias; a Go map is an association list with distinct keys. -/
structure InteractiveChatbot where
  config : Config
  heap : List SmartConversation
  conversation : ConvPtr
  conversations : List (String × ConvPtr)
  currentID : String
  saveDir : String
deriving DecidableEq, Repr

/-- Map read `m[k]`; a missing key reads as `nil`. -/
def mapGet (m : List (String × ConvPtr)) (k : String) : ConvPtr :=
  match m.find? (fun p => p.1 == k) with
  | some p => p.2
  | none => none

/-- Map write `m[k] = v`: replaces the entry of `k` or adds one. -/
def mapSet (m : List (String × ConvPtr)) (k : String) (v : ConvPtr) : List (String × ConvPtr) :=
  if m.any (fun p => p.1 == k) then m.map (fun p => if p.1 == k then (k, v) else p)
  else m ++ [(k, v)]

/-- Pointer dereference; `none` is the nil-pointer panic. -/
def deref (heap : List SmartConversation) (p : ConvPtr) : Option SmartConversation :=
  match p with
  | none => none
  | some a => heap[a]?

/-- Write through a pointer known to be valid. -/
def store (heap : List SmartConversation) (p : ConvPtr) (c : SmartConversation) :
    List SmartConversation :=
  match p with
  | none => heap
  | some a => heap.set a c

/-- `NewInteractiveChatBot`.  The arguments `model` and `systemPrompt` are
not used by the source: the configuration is fixed. -/
def NewInteractiveChatBot (_model _systemPrompt : String) (created lastUsed now : GoTime) :
    InteractiveChatbot :=
  let config : Config :=
    { Model := "llama3.1:8b"
      SystemPrompt := "You are a helpful assistant. Your name is Taconite. Be informative but concise and friendly."
      MaxTokens := 4000
      StreamMode := true
      SaveDir := "./conversations" }
  let conv := NewSmartConversation "default" "Default Chat" config.Model config.SystemPrompt
    config.MaxTokens created lastUsed now
  let conversations := mapSet [] "default" (some 0)
  { config := config, heap := [conv], conversations := conversations,
    conversation := mapGet conversations "default", currentID := "default",
    saveDir := config.SaveDir }

/-- The gateways of the two modes. -/
structure Gateway where
  batch : OllamaRequest → Except String (HttpResponse BatchBody)
  stream : OllamaRequest → Except String (HttpResponse StreamBody)

/-- The effects of `sendMessage`: the chatbot afterwards, the request handed
to the gateway and the error it printed, if any. -/
structure SendMessageOutcome where
  bot : InteractiveChatbot
  posted : OllamaRequest
  err : Option String

/-- `sendMessage`; `tUser` and `tReply` are the `time.Now()` readings of the
two `AddMessage` calls.  `none` is the nil-pointer panic on
`bot.conversation`. -/
def sendMessage (gw : Gateway) (bot : InteractiveChatbot) (userInput : String)
    (tUser tReply : GoTime) : Option SendMessageOutcome :=
  match deref bot.heap bot.conversation with
  | none => none
  | some c =>
    let c := AddMessage c "user" userInput tUser
    let out :=
      if bot.config.StreamMode then SendToOllamaStream gw.stream c tReply
      else SendToOllamaBatch gw.batch c tReply
    some { bot := { bot with heap := store bot.heap bot.conversation out.conv },
           posted := out.posted, err := out.err }

/-- `unicode.IsSpace`. -/
def isSpace (ch : Char) : Bool :=
  let n := ch.toNat
  (9 ≤ n && n ≤ 13) || n == 32 || n == 0x85 || n == 0xA0 || n == 0x1680 ||
  (0x2000 ≤ n && n ≤ 0x200A) || n == 0x2028 || n == 0x2029 || n == 0x202F ||
  n == 0x205F || n == 0x3000

/-- The scan of `strings.Fields`: `cur` is the field being read, reversed. -/
def fieldsAux : List Char → List Char → List String
  | [], cur => if cur.isEmpty then [] else [String.mk cur.reverse]
  | ch :: rest, cur =>
    if isSpace ch then
      if cur.isEmpty then fieldsAux rest [] else String.mk cur.reverse :: fieldsAux rest []
    else fieldsAux rest (ch :: cur)

/-- `strings.Fields`. -/
def Fields (s : String) : List String := fieldsAux s.data []

/-- `strings.ToLower`, over the rune mapping `unicode.ToLower` (`lower`). -/
def ToLower (lower : Char → Char) (s : String) : String := String.mk (s.data.map lower)

/-- `strings.Join`. -/
def Join (elems : List String) (sep : String) : String := sep.intercalate elems

/-- The readings `handleCommand` takes from the clock for `new`:
`time.Now().Format("15:04")`, `time.Now().Unix()` and the three readings of
`NewSmartConversation`. -/
structure Clock where
  hhmm : String
  unix : Int
  created : GoTime
  lastUsed : GoTime
  now : GoTime

/-- How a call of `handleCommand` ends: it returns `validCmd`, or the process
exits (`os.Exit(0)`), or it panics. -/
inductive Outcome where
  | returned (validCmd : Bool) (bot : InteractiveChatbot)
  | exited (bot : InteractiveChatbot)
  | panicked
deriving DecidableEq, Repr

/-- `handleCommand`.  `lower` is `unicode.ToLower`.  Output and the file
written by `save` are not modelled; a command that only prints still
dereferences what it prints. -/
def handleCommand (lower : Char → Char) (clock : Clock) (bot : InteractiveChatbot)
    (command : String) : Outcome :=
  let parts := Fields (ToLower lower command)
  match parts with
  | [] => .panicked
  | cmd :: args =>
    if cmd = "help" then .returned true bot
    else if cmd = "exit" ∨ cmd = "quit" then
      match deref bot.heap bot.conversation with
      | none => .panicked
      | some _ => .exited bot
    else if cmd = "new" then
      let name := if parts.length > 1 then Join args " " else "Conversation " ++ clock.hhmm
      let id := "conv_" ++ toString clock.unix
      let conv := NewSmartConversation id name bot.config.Model bot.config.SystemPrompt
        bot.config.MaxTokens clock.created clock.lastUsed clock.now
      let conversations := mapSet bot.conversations id (some bot.heap.length)
      .returned true
        { bot with
          heap := bot.heap ++ [conv]
          conversations := conversations
          conversation := mapGet conversations id
          currentID := id }
    else if cmd = "list" then
      if bot.conversations.all (fun p => (deref bot.heap p.2).isSome) then .returned true bot
      else .panicked
    else if cmd = "clear" then
      match deref bot.heap bot.conversation with
      | none => .panicked
      | some c =>
        .returned true { bot with heap := store bot.heap bot.conversation { c with Messages := [] } }
    else if cmd = "debug" ∨ cmd = "stats" then
      match deref bot.heap bot.conversation with
      | none => .panicked
      | some _ => .returned true bot
    else if cmd = "model" then .returned true bot
    else if cmd = "save" then
      match args with
      | [] => .panicked
      | _fileName :: _ =>
        match deref bot.heap bot.conversation with
        | none => .panicked
        | some _ => .returned true bot
    else if cmd = "stream" then
      .returned true { bot with config := { bot.config with StreamMode := !bot.config.StreamMode } }
    else .returned false bot

/-- A run of `AddMessage` calls, each with its role, content and clock
reading, in order. -/
def addMessages (c : SmartConversation) (calls : List (String × String × GoTime)) :
    SmartConversation :=
  calls.foldl (fun c a => AddMessage c a.1 a.2.1 a.2.2) c

/-- The `s` of the eviction floor: `1` when the first message has role
`"system"`, else `0`. -/
def leadingSystem (msgs : List ChatMessage) : Nat :=
  if msgs.head?.map ChatMessage.Role = some "system" then 1 else 0

/-- The slice left when the `k` oldest messages after the first `s` are
removed. -/
def removeOldest (s k : Nat) (msgs : List ChatMessage) : List ChatMessage :=
  msgs.take s ++ msgs.drop (s + k)

/-- The stopping condition of the eviction step after `k` removals, for a
transcript whose token count is the sum of the estimates of its messages:
the budget is met or the floor `s + 2` is reached. -/
def stopsAt (maxTokens : Int) (s k : Nat) (msgs : List ChatMessage) : Prop :=
  sumTokens (removeOldest s k msgs) ≤ maxTokens ∨ (removeOldest s k msgs).length ≤ s + 2

/-- The view of a message sent to the inference server: role and content,
zero time. -/
def stripTime (m : ChatMessage) : ChatMessage :=
  { Role := m.Role, Content := m.Content, Time := 0 }

/-- The transcript of the scenario of the specification before its last
append: budget 10, a system prompt, a user message and a reply. -/
def scenarioConv : SmartConversation :=
  AddMessage
    (AddMessage (NewSmartConversation "s" "scenario" "m" "You are a bot" 10 0 0 1) "user" "hi" 2)
    "assistant" "hello there friend" 3

/-- The last user message of the scenario. -/
def followup : String := "this is a much longer followup question"

/-- The scenario of the specification, run to its end. -/
def scenarioRun : SmartConversation := AddMessage scenarioConv "user" followup 4

/-- A gateway that refuses every connection. -/
def refusingGateway : Gateway :=
  { batch := fun _ => .error "connection refused"
    stream := fun _ => .error "connection refused" }

/-- The chatbot as `main` creates it, with clock readings `0`, `0`, `1`. -/
def freshBot : InteractiveChatbot :=
  NewInteractiveChatBot "llama3.1:8b"
    "You are a helpful assistant. Your name is Taconite. Be informative but concise and friendly."
    0 0 1

/-- Clock readings for a `new` command. -/
def sampleClock : Clock := { hhmm := "12:00", unix := 1700000000, created := 5, lastUsed := 5, now := 6 }

/-! ## Streamed replies, the registry and the web client -/

/-- The fragments of a streamed reply up to and including the first one
with `done = true`; all of them when none has it. -/
def untilDone : List OllamaStreamResponse → List OllamaStreamResponse
  | [] => []
  | f :: rest => if f.Done then [f] else f :: untilDone rest

/-- The contents of the fragments, put end to end with no separator. -/
def concatContents : List OllamaStreamResponse → String
  | [] => ""
  | f :: rest => f.Message.Content ++ concatContents rest

/-- A fragment as the inference server sends it. -/
def fragment (content : String) (done : Bool) : OllamaStreamResponse :=
  { Message := { Role := "assistant", Content := content, Time := 0 }, Done := done }

/-- The three fragments of property P4 of the specification. -/
def helloFragments : List OllamaStreamResponse :=
  [fragment "Hel" false, fragment "lo, " false, fragment "world" true]

/-- A gateway that answers every request with status 200 and a full reply. -/
def replyingGateway : Gateway :=
  { batch := fun _ =>
      .ok { StatusCode := 200,
            Body := .ok { Message := { Role := "assistant", Content := "Hello, world", Time := 0 } } }
    stream := fun _ => .ok { StatusCode := 200, Body := helloFragments.map Except.ok } }

/-- A gateway whose stream breaks after the first fragment and whose batch
body does not decode. -/
def breakingGateway : Gateway :=
  { batch := fun _ => .ok { StatusCode := 200, Body := .error "unexpected EOF" }
    stream := fun _ =>
      .ok { StatusCode := 200, Body := [.ok (fragment "Hel" false), .error "unexpected EOF"] } }

/-- A server that answers with status 500 and a JSON object without a
`message` member (such as an error object), which decodes to the zero
value of the response type. -/
def failingStatusGateway : Gateway :=
  { batch := fun _ => .ok { StatusCode := 500, Body := .ok { Message := zeroMessage } }
    stream := fun _ =>
      .ok { StatusCode := 500, Body := [.ok { Message := zeroMessage, Done := false }] } }

/-- The registry invariant: `currentID` is a key of `conversations`, the
pointer stored under it is `bot.conversation`, and that pointer refers to a
transcript. -/
def registryInv (bot : InteractiveChatbot) : Prop :=
  bot.conversations.any (fun p => p.1 == bot.currentID) = true ∧
  mapGet bot.conversations bot.currentID = bot.conversation ∧
  (deref bot.heap bot.conversation).isSome = true

instance (bot : InteractiveChatbot) : Decidable (registryInv bot) := by
  unfold registryInv; infer_instance

/-- A run of `handleCommand` calls, each with its clock readings, that all
return; `none` when one of them exits the process or panics. -/
def runCommands (lower : Char → Char) (bot : InteractiveChatbot) :
    List (Clock × String) → Option InteractiveChatbot
  | [] => some bot
  | (clock, command) :: rest =>
    match handleCommand lower clock bot command with
    | .returned _ bot1 => runCommands lower bot1 rest
    | _ => none

/-- The chatbot after `new` at `sampleClock`. -/
def botAfterNew : InteractiveChatbot :=
  match handleCommand Char.toLower sampleClock freshBot "new" with
  | .returned _ bot => bot
  | _ => freshBot

/-- The chatbot after `new` at `sampleClock` and one exchange in the new
conversation. -/
def botAfterExchange : InteractiveChatbot :=
  match sendMessage replyingGateway botAfterNew "hi" 7 8 with
  | some out => out.bot
  | none => botAfterNew

/-- A run of commands that all return. -/
def sampleCommands : List (Clock × String) :=
  [(sampleClock, "new chat one"), (sampleClock, "clear"), (sampleClock, "stream"),
   (sampleClock, "list"), (sampleClock, "hello there")]

/-- The chatbot after `sampleCommands`. -/
def botAfterCommands : InteractiveChatbot :=
  (runCommands Char.toLower freshBot sampleCommands).getD freshBot

namespace Services

/-- `models.Message` of `internal/models/conversation.go`. -/
structure Message where
  ID : String
  ConversationID : String
  Role : String
  Content : String
  TokenCount : Int
  CreatedAt : GoTime
deriving DecidableEq, Repr

/-- `OllamaMessage` of `internal/services/ai_client.go`. -/
structure OllamaMessage where
  Role : String
  Content : String
deriving DecidableEq, Repr

/-- `OllamaRequest` of `internal/services/ai_client.go`. -/
structure OllamaRequest where
  Model : String
  Messages : List OllamaMessage
  Stream : Bool
deriving DecidableEq, Repr

/-- `OllamaResponse` of `internal/services/ai_client.go`. -/
structure OllamaResponse where
  Message : OllamaMessage
deriving DecidableEq, Repr

/-- The `*http.Response` fields `sendOllamaMessage` reads; `Body` is the
result of `Decode(&response)`. -/
structure Response where
  Status : String
  StatusCode : Nat
  Body : Except String OllamaResponse

/-- `AIClient` without its `*http.Client`, which is the `post` argument of
`sendOllamaMessage`. -/
structure AIClient where
  provider : String
  baseURL : String
  model : String

/-- `http.StatusOK`. -/
def StatusOK : Nat := 200

/-- `sendOllamaMessage`: the returned pair `(content, err)`. -/
def sendOllamaMessage (ai : AIClient) (post : OllamaRequest → Except String Response)
    (messages : List Message) : String × Option String :=
  let ollamaMessages := List.replicate messages.length ({ Role := "", Content := "" } : OllamaMessage)
  let ollamaMessages := messages.enum.foldl
    (fun acc p => acc.set p.1 { Role := p.2.Role, Content := p.2.Content }) ollamaMessages
  let request : OllamaRequest := { Model := ai.model, Messages := ollamaMessages, Stream := false }
  match post request with
  | .error err => ("", some ("API request failed: " ++ err))
  | .ok resp =>
    if resp.StatusCode ≠ StatusOK then
      ("", some ("API request failed with status: " ++ resp.Status))
    else
      match resp.Body with
      | .error err => ("", some ("failed to decode response: " ++ err))
      | .ok response => (response.Message.Content, none)

end Services

/-! ## Lemmas on the eviction loop -/

theorem evict_zero (s : Nat) (c : SmartConversation) : evict s 0 c = c := by
  simp [evict, sumTokens]

theorem drop_removed (s : Nat) (M : List ChatMessage) (h : s ≤ M.length) :
    (M.take s ++ M.drop (s + 1)).drop s = M.drop (s + 1) := by
  have hl : (M.take s).length = s := by simp [List.length_take]; omega
  rw [List.drop_append_eq_append_drop, hl]
  simp [List.drop_take]

theorem take_removed (s : Nat) (M : List ChatMessage) (h : s ≤ M.length) :
    (M.take s ++ M.drop (s + 1)).take s = M.take s := by
  have hl : (M.take s).length = s := by simp [List.length_take]; omega
  rw [List.take_append_eq_append_take, hl]
  simp [List.take_take]

theorem evict_trimStep (s k : Nat) (c : SmartConversation)
    (h : c.Messages.length > s + 2) :
    evict s k (trimStep s c h) = evict s (k + 1) c := by
  have hs : s ≤ c.Messages.length := by omega
  have hlt : s < c.Messages.length := by omega
  have hd : c.Messages.drop s = c.Messages.get ⟨s, hlt⟩ :: c.Messages.drop (s + 1) := by
    rw [List.drop_eq_getElem_cons hlt]; rfl
  have h1 : (c.Messages.take s ++ c.Messages.drop (s + 1)).drop (s + k)
      = c.Messages.drop (s + (k + 1)) := by
    rw [← List.drop_drop, drop_removed s _ hs, List.drop_drop]
    congr 1; omega
  simp only [evict, trimStep, take_removed s _ hs, drop_removed s _ hs, h1, hd,
    List.take_succ_cons, sumTokens, List.map_cons, List.sum_cons]
  congr 1
  omega

theorem trimLoop_spec (s : Nat) : ∀ (fuel : Nat) (c : SmartConversation),
    ∃ k, k ≤ fuel ∧ trimLoop s fuel c = evict s k c ∧
      (∀ j, j < k → loopCond s (evict s j c)) ∧
      (k < fuel → ¬ loopCond s (evict s k c)) := by
  intro fuel
  induction fuel with
  | zero =>
    intro c
    exact ⟨0, le_refl _, by simp [trimLoop, evict_zero], by intro j hj; omega, by intro h; omega⟩
  | succ n ih =>
    intro c
    by_cases h : c.TokenCount > c.MaxTokens ∧ c.Messages.length > s + 2
    · obtain ⟨k, hk, heq, hlt, hex⟩ := ih (trimStep s c h.2)
      refine ⟨k + 1, by omega, ?_, ?_, ?_⟩
      · rw [trimLoop, dif_pos h, heq, evict_trimStep]
      · intro j hj
        cases j with
        | zero => rw [evict_zero]; exact h
        | succ j =>
          have := hlt j (by omega)
          rwa [evict_trimStep] at this
      · intro hk2
        have := hex (by omega)
        rwa [evict_trimStep] at this
    · refine ⟨0, by omega, ?_, by intro j hj; omega, ?_⟩
      · rw [trimLoop, dif_neg h, evict_zero]
      · intro _
        rw [evict_zero]
        exact h

theorem evict_length (s k : Nat) (c : SmartConversation) :
    (evict s k c).Messages.length = min s c.Messages.length + (c.Messages.length - (s + k)) := by
  simp [evict, List.length_take]

/-- With at least `len(c.Messages)` units of fuel the loop stops because its
guard fails, at the least number of iterations at which it fails. -/
theorem trimLoop_exit (s fuel : Nat) (c : SmartConversation) (hf : c.Messages.length ≤ fuel) :
    ∃ k, trimLoop s fuel c = evict s k c ∧
      (∀ j, j < k → loopCond s (evict s j c)) ∧ ¬ loopCond s (evict s k c) := by
  obtain ⟨k, hk, heq, hlt, hex⟩ := trimLoop_spec s fuel c
  refine ⟨k, heq, hlt, ?_⟩
  by_cases hkf : k < fuel
  · exact hex hkf
  · intro hc
    have hl := hc.2
    rw [evict_length] at hl
    omega

/-- The first `k` at which the guard fails is unique. -/
theorem least_unique (P : Nat → Prop) (a b : Nat)
    (ha : ∀ j, j < a → P j) (hna : ¬ P a) (hb : ∀ j, j < b → P j) (hnb : ¬ P b) : a = b := by
  rcases Nat.lt_trichotomy a b with h | h | h
  · exact absurd (hb a h) hna
  · exact h
  · exact absurd (ha b h) hnb

/-- Fuel beyond `len(c.Messages)` does not change the result of the loop. -/
theorem trimLoop_fuel (s fuel : Nat) (c : SmartConversation) (hf : c.Messages.length ≤ fuel) :
    trimLoop s fuel c = trimLoop s c.Messages.length c := by
  obtain ⟨k1, h1, hl1, hn1⟩ := trimLoop_exit s fuel c hf
  obtain ⟨k2, h2, hl2, hn2⟩ := trimLoop_exit s c.Messages.length c (le_refl _)
  have := least_unique (fun j => loopCond s (evict s j c)) k1 k2 hl1 hn1 hl2 hn2
  rw [h1, h2, this]

/-- What `trimToFitContext` computes: `evict` at the least `k` at which the
loop guard fails. -/
theorem trimToFitContext_spec (c : SmartConversation) :
    ∃ k, trimToFitContext c = evict (startIdxOf c.Messages) k c ∧
      (∀ j, j < k → loopCond (startIdxOf c.Messages) (evict (startIdxOf c.Messages) j c)) ∧
      ¬ loopCond (startIdxOf c.Messages) (evict (startIdxOf c.Messages) k c) := by
  unfold trimToFitContext
  by_cases h : c.TokenCount ≤ c.MaxTokens
  · refine ⟨0, by rw [if_pos h, evict_zero], by intro j hj; omega, ?_⟩
    rw [evict_zero]
    intro hc
    exact absurd hc.1 (not_lt.mpr h)
  · rw [if_neg h]
    exact trimLoop_exit _ _ c (le_refl _)

theorem startIdxOf_le_one (M : List ChatMessage) : startIdxOf M ≤ 1 := by
  unfold startIdxOf; split <;> omega

theorem startIdxOf_le_length (M : List ChatMessage) : startIdxOf M ≤ M.length := by
  unfold startIdxOf systemMsgExists
  cases M with
  | nil => simp
  | cons m t => simp only [List.length_cons]; split <;> omega

theorem sumTokens_append (A B : List ChatMessage) :
    sumTokens (A ++ B) = sumTokens A + sumTokens B := by
  simp [sumTokens, List.map_append, List.sum_append]

/-- The messages a run of the loop removes weigh exactly the difference of
the sums before and after. -/
theorem sumTokens_evict (s k : Nat) (M : List ChatMessage) :
    sumTokens (M.take s ++ M.drop (s + k))
      = sumTokens M - sumTokens ((M.drop s).take k) := by
  have h2 : sumTokens M
      = sumTokens (M.take s) + (sumTokens ((M.drop s).take k) + sumTokens ((M.drop s).drop k)) := by
    rw [← sumTokens_append, ← sumTokens_append, List.take_append_drop, List.take_append_drop]
  have h3 : (M.drop s).drop k = M.drop (s + k) := by
    rw [List.drop_drop]
  rw [h2, sumTokens_append, h3]
  ring

/-- `trimToFitContext` preserves the token-accounting invariant. -/
theorem trimToFitContext_inv (c : SmartConversation)
    (h : c.TokenCount = sumTokens c.Messages) :
    (trimToFitContext c).TokenCount = sumTokens (trimToFitContext c).Messages := by
  obtain ⟨k, heq, _, _⟩ := trimToFitContext_spec c
  rw [heq]
  simp only [evict]
  rw [sumTokens_evict, h]

theorem appendMessage_inv (c : SmartConversation) (role content : String) (now : GoTime)
    (h : c.TokenCount = sumTokens c.Messages) :
    (appendMessage c role content now).TokenCount
      = sumTokens (appendMessage c role content now).Messages := by
  simp [appendMessage, sumTokens, h]

theorem AddMessage_inv (c : SmartConversation) (role content : String) (now : GoTime)
    (h : c.TokenCount = sumTokens c.Messages) :
    (AddMessage c role content now).TokenCount
      = sumTokens (AddMessage c role content now).Messages :=
  trimToFitContext_inv _ (appendMessage_inv c role content now h)

theorem startIdxOf_eq (M : List ChatMessage) : startIdxOf M = leadingSystem M := by
  cases M with
  | nil => simp [startIdxOf, systemMsgExists, leadingSystem]
  | cons m t => simp [startIdxOf, systemMsgExists, leadingSystem]

/-- The shape of the result of `trimToFitContext`: `k` messages are cut out
after the first `startIdx`, and when `k > 0` at least `startIdx + 2` remain. -/
theorem trimToFitContext_shape (c : SmartConversation) :
    ∃ k, trimToFitContext c = evict (startIdxOf c.Messages) k c ∧
      (k = 0 ∨ startIdxOf c.Messages + k + 2 ≤ c.Messages.length) ∧
      (c.Messages.length ≤ startIdxOf c.Messages + 2 → k = 0) := by
  obtain ⟨k, heq, hlt, _⟩ := trimToFitContext_spec c
  have hs := startIdxOf_le_length c.Messages
  refine ⟨k, heq, ?_, ?_⟩
  · cases k with
    | zero => left; rfl
    | succ k =>
      right
      have h := (hlt k (by omega)).2
      rw [evict_length] at h
      omega
  · intro hle
    cases k with
    | zero => rfl
    | succ k =>
      have h := (hlt 0 (by omega)).2
      rw [evict_zero] at h
      omega

theorem estimateTokens_eq (text : String) :
    estimateTokens text = ((text.utf8ByteSize / 4 : Nat) : Int) := by
  unfold estimateTokens
  exact (Int.ofNat_tdiv text.utf8ByteSize 4).symm

theorem addMessages_inv (calls : List (String × String × GoTime)) :
    ∀ c : SmartConversation, c.TokenCount = sumTokens c.Messages →
      (addMessages c calls).TokenCount = sumTokens (addMessages c calls).Messages := by
  induction calls with
  | nil => intro c h; exact h
  | cons a t ih =>
    intro c h
    exact ih _ (AddMessage_inv c a.1 a.2.1 a.2.2 h)

theorem NewSmartConversation_inv (id name model systemPrompt : String) (maxTokens : Int)
    (created lastUsed now : GoTime) :
    (NewSmartConversation id name model systemPrompt maxTokens created lastUsed now).TokenCount
      = sumTokens
        (NewSmartConversation id name model systemPrompt maxTokens created lastUsed now).Messages := by
  unfold NewSmartConversation
  split
  · exact AddMessage_inv _ _ _ _ (by simp [sumTokens])
  · simp [sumTokens]

/-- Everything about one run of `trimToFitContext`, with `s` the number of
protected leading messages: the result is `evict s k c` for the number `k` of
removed messages, `k` is the first count at which the loop guard fails, and
a run that removes something leaves at least `s + 2` messages. -/
theorem trimToFitContext_char (c : SmartConversation) :
    ∃ k, trimToFitContext c = evict (leadingSystem c.Messages) k c ∧
      (∀ j, j < k → loopCond (leadingSystem c.Messages) (evict (leadingSystem c.Messages) j c)) ∧
      ¬ loopCond (leadingSystem c.Messages) (evict (leadingSystem c.Messages) k c) ∧
      (k = 0 ∨ leadingSystem c.Messages + k + 2 ≤ c.Messages.length) ∧
      k = c.Messages.length - (trimToFitContext c).Messages.length := by
  obtain ⟨k, heq, hlt, hex⟩ := trimToFitContext_spec c
  have hs := startIdxOf_le_length c.Messages
  rw [startIdxOf_eq] at hs
  simp only [startIdxOf_eq] at heq hlt hex
  generalize leadingSystem c.Messages = s at *
  have hk : k = 0 ∨ s + k + 2 ≤ c.Messages.length := by
    cases k with
    | zero => left; rfl
    | succ n =>
      right
      have h := (hlt n (by omega)).2
      rw [evict_length] at h
      omega
  refine ⟨k, heq, hlt, hex, hk, ?_⟩
  rw [heq, evict_length]
  omega

/-- Under the token-accounting invariant the loop guard after `j` removals
is the negation of the stopping condition. -/
theorem loopCond_evict_iff (s j : Nat) (c : SmartConversation)
    (hinv : c.TokenCount = sumTokens c.Messages) :
    loopCond s (evict s j c) ↔ ¬ stopsAt c.MaxTokens s j c.Messages := by
  have ht : (evict s j c).TokenCount = sumTokens (removeOldest s j c.Messages) := by
    simp only [evict, removeOldest]
    rw [sumTokens_evict, hinv]
  have hm : (evict s j c).Messages = removeOldest s j c.Messages := rfl
  have hx : (evict s j c).MaxTokens = c.MaxTokens := rfl
  unfold loopCond stopsAt
  rw [ht, hm, hx, not_or, not_le, not_le]

/-- The message just appended is the last one after the eviction step. -/
theorem AddMessage_getLast (c : SmartConversation) (role content : String) (now : GoTime) :
    (AddMessage c role content now).Messages.getLast? = some (ChatMessage.mk role content now) := by
  obtain ⟨k, heq, hk, _⟩ := trimToFitContext_shape (appendMessage c role content now)
  have hL : (appendMessage c role content now).Messages
      = c.Messages ++ [ChatMessage.mk role content now] := rfl
  have hlast : (appendMessage c role content now).Messages.getLast?
      = some (ChatMessage.mk role content now) := by
    rw [hL]; simp
  unfold AddMessage
  rw [heq]
  rcases hk with hk | hk
  · rw [hk, evict_zero, hlast]
  · simp only [evict]
    rw [List.getLast?_append, List.getLast?_drop, if_neg (by omega), hlast]
    rfl

/-- The index-by-index fill of `getMessagesForAPI`, started at index `n`. -/
theorem fill_enumFrom (L : List ChatMessage) :
    ∀ (n : Nat) (pre post : List ChatMessage), pre.length = n → post.length = L.length →
      (L.enumFrom n).foldl
        (fun acc p => acc.set p.1 { Role := p.2.Role, Content := p.2.Content, Time := 0 })
        (pre ++ post) = pre ++ L.map stripTime := by
  induction L with
  | nil =>
    intro n pre post _ hpost
    have : post = [] := List.length_eq_zero.mp hpost
    simp [this]
  | cons x t ih =>
    intro n pre post hpre hpost
    cases post with
    | nil => simp at hpost
    | cons q post =>
      simp only [List.length_cons, add_left_inj] at hpost
      rw [List.enumFrom_cons, List.foldl_cons]
      have hset : (pre ++ q :: post).set n { Role := x.Role, Content := x.Content, Time := 0 }
          = (pre ++ [stripTime x]) ++ post := by
        rw [List.set_append_right _ _ (by omega), hpre]
        simp [stripTime]
      simp only [hset]
      rw [ih (n + 1) (pre ++ [stripTime x]) post (by simp [hpre]) hpost]
      simp

theorem getMessagesForAPI_fst (c : SmartConversation) :
    (getMessagesForAPI c).1 = c.Messages.map stripTime := by
  have h := fill_enumFrom c.Messages 0 [] (List.replicate c.Messages.length zeroMessage)
    rfl (by simp)
  simpa [getMessagesForAPI, List.enum] using h

theorem estimate_prompt : estimateTokens "You are a bot" = 3 := by decide

theorem estimate_hi : estimateTokens "hi" = 0 := by decide

theorem estimate_reply : estimateTokens "hello there friend" = 4 := by decide

theorem estimate_followup :
    estimateTokens "this is a much longer followup question" = 9 := by decide

/-! ## The claims -/

/-- C1 (token accounting): for a transcript built by `NewSmartConversation`
and then any finite run of `AddMessage` calls, `TokenCount` is the sum of
`estimateTokens(m.Content)`, that is of `len(m.Content) / 4`, over the messages
currently in `Messages`. -/
theorem token_accounting (id name model systemPrompt : String) (maxTokens : Int)
    (created lastUsed now : GoTime) (calls : List (String × String × GoTime)) :
    (addMessages (NewSmartConversation id name model systemPrompt maxTokens created lastUsed now)
        calls).TokenCount
      = ((addMessages
            (NewSmartConversation id name model systemPrompt maxTokens created lastUsed now)
            calls).Messages.map
          (fun m => ((m.Content.utf8ByteSize / 4 : Nat) : Int))).sum := by
  have h := addMessages_inv calls _
    (NewSmartConversation_inv id name model systemPrompt maxTokens created lastUsed now)
  rw [h, sumTokens]
  simp only [estimateTokens_eq]

/-- C2 (eviction floor): with `s = 1` when the first message at the start of
the eviction step has role `"system"` and `s = 0` otherwise, the eviction step
of `AddMessage` removes nothing from a transcript of at most `s + 2` messages,
and whenever it removes a message at least `s + 2` messages remain. -/
theorem eviction_floor (c : SmartConversation) (role content : String) (now : GoTime) :
    ((appendMessage c role content now).Messages.length
        ≤ leadingSystem (appendMessage c role content now).Messages + 2 →
      (AddMessage c role content now).Messages = (appendMessage c role content now).Messages) ∧
    ((AddMessage c role content now).Messages.length
        < (appendMessage c role content now).Messages.length →
      leadingSystem (appendMessage c role content now).Messages + 2
        ≤ (AddMessage c role content now).Messages.length) := by
  obtain ⟨k, heq, hk, h0⟩ := trimToFitContext_shape (appendMessage c role content now)
  have hs := startIdxOf_le_length (appendMessage c role content now).Messages
  rw [startIdxOf_eq] at heq hk h0 hs
  have hlen := evict_length (leadingSystem (appendMessage c role content now).Messages) k
    (appendMessage c role content now)
  unfold AddMessage
  rw [heq]
  constructor
  · intro hle
    rw [h0 hle, evict_zero]
  · intro hlt
    rw [hlen] at hlt ⊢
    omega

/-- C2, at concrete inputs: a first append removes nothing, and the last
append of the scenario removes a message and leaves `1 + 2`. -/
theorem eviction_floor_witness :
    ((AddMessage { scenarioConv with Messages := [], TokenCount := 0 } "user" followup 4).Messages
      = (appendMessage { scenarioConv with Messages := [], TokenCount := 0 }
          "user" followup 4).Messages) ∧
    (leadingSystem (appendMessage scenarioConv "user" followup 4).Messages + 2
      ≤ (AddMessage scenarioConv "user" followup 4).Messages.length) :=
  ⟨(eviction_floor { scenarioConv with Messages := [], TokenCount := 0 } "user" followup 4).1
      (by decide),
   (eviction_floor scenarioConv "user" followup 4).2 (by decide)⟩

/-- C3 (system-prompt protection): when the first message of the transcript
has role `"system"`, then after `AddMessage`, for every `MaxTokens`, role and
content, the first message is that same message (role, content and time). -/
theorem system_prompt_protected (c : SmartConversation) (m0 : ChatMessage)
    (role content : String) (now : GoTime)
    (hhead : c.Messages.head? = some m0) (hrole : m0.Role = "system") :
    (AddMessage c role content now).Messages.head? = some m0 := by
  obtain ⟨k, heq, _, _⟩ := trimToFitContext_shape (appendMessage c role content now)
  unfold AddMessage
  rw [heq, startIdxOf_eq]
  cases hM : c.Messages with
  | nil => rw [hM] at hhead; simp at hhead
  | cons m t =>
    rw [hM] at hhead
    simp only [List.head?_cons, Option.some.injEq] at hhead
    subst hhead
    simp [evict, appendMessage, hM, leadingSystem, hrole]

/-- C3, at the scenario transcript with a budget of `-1`. -/
theorem system_prompt_protected_witness :
    (AddMessage { scenarioConv with MaxTokens := -1 } "user" followup 4).Messages.head?
      = some { Role := "system", Content := "You are a bot", Time := 1 } :=
  system_prompt_protected { scenarioConv with MaxTokens := -1 }
    { Role := "system", Content := "You are a bot", Time := 1 } "user" followup 4
    (by decide) (by decide)

/-- C4 (FIFO, oldest first): the messages after `AddMessage` are the first
`s` elements of `M ++ [m]` followed by a suffix of the remaining ones, where
`s = 1` when `M ++ [m]` starts with a system message and `s = 0` otherwise. -/
theorem fifo_eviction (c : SmartConversation) (role content : String) (now : GoTime) :
    ∃ suffix : List ChatMessage,
      List.IsSuffix suffix
        ((c.Messages ++ [ChatMessage.mk role content now]).drop
          (leadingSystem (c.Messages ++ [ChatMessage.mk role content now]))) ∧
      (AddMessage c role content now).Messages
        = (c.Messages ++ [ChatMessage.mk role content now]).take
            (leadingSystem (c.Messages ++ [ChatMessage.mk role content now]))
          ++ suffix := by
  obtain ⟨k, heq, _, _⟩ := trimToFitContext_shape (appendMessage c role content now)
  rw [startIdxOf_eq] at heq
  refine ⟨(c.Messages ++ [ChatMessage.mk role content now]).drop
    (leadingSystem (c.Messages ++ [ChatMessage.mk role content now]) + k),
    ?_, ?_⟩
  · rw [← List.drop_drop]
    exact List.drop_suffix _ _
  · unfold AddMessage
    rw [heq]
    rfl

/-- C5 (eviction stops exactly at budget or floor): for a transcript that
satisfies the token-accounting invariant, the number `k` of messages that
`AddMessage` evicts is the least `k` such that, after removing the `k` oldest
non-protected messages, the token count is within `MaxTokens` or at most
`s + 2` messages are left; in particular one of the two holds after the call. -/
theorem eviction_stops_at_budget_or_floor (c : SmartConversation) (role content : String)
    (now : GoTime) (hinv : c.TokenCount = sumTokens c.Messages) :
    let L := (appendMessage c role content now).Messages
    let s := leadingSystem L
    let r := AddMessage c role content now
    let k := L.length - r.Messages.length
    r.Messages = removeOldest s k L ∧
    r.TokenCount = sumTokens r.Messages ∧
    stopsAt c.MaxTokens s k L ∧
    (∀ j, j < k → ¬ stopsAt c.MaxTokens s j L) ∧
    (r.TokenCount ≤ r.MaxTokens ∨ r.Messages.length ≤ s + 2) := by
  intro L s r k
  have hinv1 := appendMessage_inv c role content now hinv
  obtain ⟨k1, heq, hlt, hex, _, hk⟩ := trimToFitContext_char (appendMessage c role content now)
  have hr : r = evict s k1 (appendMessage c role content now) := heq
  have hkk : k = k1 := hk.symm
  have hmax : (appendMessage c role content now).MaxTokens = c.MaxTokens := rfl
  have hstop : stopsAt c.MaxTokens s k1 L := by
    have := (loopCond_evict_iff s k1 _ hinv1).not.mp hex
    rw [hmax] at this
    exact not_not.mp this
  have hrm : r.Messages = removeOldest s k1 L := by rw [hr]; rfl
  have hrt : r.TokenCount = sumTokens (removeOldest s k1 L) := by
    rw [← hrm]
    exact AddMessage_inv c role content now hinv
  have hrx : r.MaxTokens = c.MaxTokens := by rw [hr]; rfl
  rw [hkk]
  refine ⟨hrm, AddMessage_inv c role content now hinv, hstop, ?_, ?_⟩
  · intro j hj
    have := (loopCond_evict_iff s j _ hinv1).mp (hlt j hj)
    rwa [hmax] at this
  · rw [hrt, hrm, hrx]
    exact hstop

/-- C5, at the last append of the scenario. -/
theorem eviction_stops_at_budget_or_floor_witness :
    scenarioConv.TokenCount = sumTokens scenarioConv.Messages ∧
    (AddMessage scenarioConv "user" followup 4).Messages
      = removeOldest 1 1 (appendMessage scenarioConv "user" followup 4).Messages :=
  ⟨by decide, (eviction_stops_at_budget_or_floor scenarioConv "user" followup 4 (by decide)).1⟩

/-- C6 (the appended message survives): after `AddMessage(role, content)`
the last element of `Messages` has that role and content, and the request
that `sendMessage` hands to the gateway after `AddMessage("user", input)` ends
with the user message, in stream and in batch mode. -/
theorem appended_message_survives (c : SmartConversation) (role content : String) (now : GoTime)
    (gw : Gateway) (bot : InteractiveChatbot) (userInput : String) (tUser tReply : GoTime)
    (c0 : SmartConversation) :
    (AddMessage c role content now).Messages.getLast? = some (ChatMessage.mk role content now) ∧
    (deref bot.heap bot.conversation = some c0 →
      ∃ out m, sendMessage gw bot userInput tUser tReply = some out ∧
        out.posted.Messages.getLast? = some m ∧ m.Role = "user" ∧ m.Content = userInput) := by
  refine ⟨AddMessage_getLast c role content now, ?_⟩
  intro hd
  have hlast := AddMessage_getLast c0 "user" userInput tUser
  unfold sendMessage
  rw [hd]
  by_cases hmode : bot.config.StreamMode = true
  · refine ⟨_, stripTime (ChatMessage.mk "user" userInput tUser), rfl, ?_, rfl, rfl⟩
    simp only [hmode, if_true]
    have hp : (SendToOllamaStream gw.stream (AddMessage c0 "user" userInput tUser) tReply).posted.Messages
        = (getMessagesForAPI (AddMessage c0 "user" userInput tUser)).1 := by
      unfold SendToOllamaStream
      simp only []
      split <;> [rfl; (split <;> rfl)]
    rw [hp, getMessagesForAPI_fst, List.getLast?_map, hlast]
    rfl
  · refine ⟨_, ChatMessage.mk "user" userInput tUser, rfl, ?_, rfl, rfl⟩
    simp only [hmode]
    have hp : (SendToOllamaBatch gw.batch (AddMessage c0 "user" userInput tUser) tReply).posted.Messages
        = (AddMessage c0 "user" userInput tUser).Messages := by
      unfold SendToOllamaBatch
      simp only []
      split <;> [rfl; (split <;> rfl)]
    simpa [hp] using hlast

/-- C6, at the freshly created chatbot and a gateway that refuses. -/
theorem appended_message_survives_witness :
    ∃ out m, sendMessage refusingGateway freshBot "hi" 2 3 = some out ∧
      out.posted.Messages.getLast? = some m ∧ m.Role = "user" ∧ m.Content = "hi" :=
  (appended_message_survives scenarioConv "user" "hi" 2 refusingGateway freshBot "hi" 2 3
    (NewSmartConversation "default" "Default Chat" "llama3.1:8b"
      "You are a helpful assistant. Your name is Taconite. Be informative but concise and friendly."
      4000 0 0 1)).2 (by decide)

/-- C7, as stated, fails: in the scenario run with clock readings
`0, 0, 1, 2, 3, 4` the estimates of the four contents are not `3, 0, 4, 10`
and the final `TokenCount` is not `17` (the last content has 39 bytes). -/
theorem scenario_counterexample :
    ¬ (estimateTokens "You are a bot" = 3 ∧ estimateTokens "hi" = 0 ∧
        estimateTokens "hello there friend" = 4 ∧
        estimateTokens "this is a much longer followup question" = 10 ∧
        scenarioRun.Messages =
          [{ Role := "system", Content := "You are a bot", Time := 1 },
           { Role := "assistant", Content := "hello there friend", Time := 3 },
           { Role := "user", Content := "this is a much longer followup question", Time := 4 }] ∧
        scenarioRun.TokenCount = 17) := by
  decide

/-- C7, amended: from `NewSmartConversation` with `MaxTokens = 10` and system
prompt "You are a bot", after the three `AddMessage` calls of the scenario the
estimates of the four contents are `3, 0, 4, 9`, the first two appends evict
nothing, the last one evicts exactly the "hi" message, the final messages are
system, assistant, new user in that order and the final `TokenCount` is `16`,
whatever the identifiers and clock readings. -/
theorem scenario_amended (id name model : String) (created lastUsed t0 t1 t2 t3 : GoTime) :
    estimateTokens "You are a bot" = 3 ∧ estimateTokens "hi" = 0 ∧
    estimateTokens "hello there friend" = 4 ∧
    estimateTokens "this is a much longer followup question" = 9 ∧
    (AddMessage
        (AddMessage (NewSmartConversation id name model "You are a bot" 10 created lastUsed t0)
          "user" "hi" t1)
        "assistant" "hello there friend" t2).Messages =
      [{ Role := "system", Content := "You are a bot", Time := t0 },
       { Role := "user", Content := "hi", Time := t1 },
       { Role := "assistant", Content := "hello there friend", Time := t2 }] ∧
    (AddMessage
        (AddMessage
          (AddMessage (NewSmartConversation id name model "You are a bot" 10 created lastUsed t0)
            "user" "hi" t1)
          "assistant" "hello there friend" t2)
        "user" "this is a much longer followup question" t3).Messages =
      [{ Role := "system", Content := "You are a bot", Time := t0 },
       { Role := "assistant", Content := "hello there friend", Time := t2 },
       { Role := "user", Content := "this is a much longer followup question", Time := t3 }] ∧
    (AddMessage
        (AddMessage
          (AddMessage (NewSmartConversation id name model "You are a bot" 10 created lastUsed t0)
            "user" "hi" t1)
          "assistant" "hello there friend" t2)
        "user" "this is a much longer followup question" t3).TokenCount = 16 := by
  refine ⟨by decide, by decide, by decide, by decide, ?_, ?_, ?_⟩ <;>
    simp [NewSmartConversation, AddMessage, appendMessage, trimToFitContext, trimLoop, trimStep,
      startIdxOf, systemMsgExists, estimate_prompt, estimate_hi, estimate_reply,
      estimate_followup]

/-- C8, on the code: in the chatbot as `main` creates it, `clear` empties the
messages of the current conversation and returns `true`, and `TokenCount`
keeps the estimate `23` of the system prompt that is no longer there. -/
theorem clear_keeps_token_count :
    ∃ bot, handleCommand Char.toLower sampleClock freshBot "clear" = Outcome.returned true bot ∧
      (deref bot.heap bot.conversation).map (fun c => (c.Messages, c.TokenCount))
        = some ([], 23) ∧
      (deref freshBot.heap freshBot.conversation).map (fun c => (c.Messages.length, c.TokenCount))
        = some (1, 23) := by
  refine ⟨_, rfl, ?_, ?_⟩ <;> decide

/-- C9 (session creation): for every `maxTokens`, `NewSmartConversation`
returns, for a non-empty system prompt, exactly the one message
`("system", systemPrompt)`, nothing being evicted, and for an empty prompt no
message; `TokenCount` is `len(systemPrompt) / 4`, which is `0` for the empty
prompt. -/
theorem new_conversation (id name model systemPrompt : String) (maxTokens : Int)
    (created lastUsed now : GoTime) :
    (NewSmartConversation id name model systemPrompt maxTokens created lastUsed now).Messages
      = (if systemPrompt = "" then [] else [ChatMessage.mk "system" systemPrompt now]) ∧
    (NewSmartConversation id name model systemPrompt maxTokens created lastUsed now).TokenCount
      = ((systemPrompt.utf8ByteSize / 4 : Nat) : Int) ∧
    (NewSmartConversation id name model "" maxTokens created lastUsed now).TokenCount = 0 := by
  have hempty : ∀ sp : String, sp = "" →
      (NewSmartConversation id name model sp maxTokens created lastUsed now).Messages = [] ∧
      (NewSmartConversation id name model sp maxTokens created lastUsed now).TokenCount = 0 := by
    intro sp h
    simp [NewSmartConversation, h]
  by_cases h : systemPrompt = ""
  · refine ⟨by rw [if_pos h]; exact (hempty _ h).1, ?_, (hempty "" rfl).2⟩
    rw [(hempty _ h).2, h]
    rfl
  · refine ⟨?_, ?_, (hempty "" rfl).2⟩
    · rw [if_neg h]
      unfold NewSmartConversation
      rw [if_pos h]
      obtain ⟨k, heq, _, h0⟩ := trimToFitContext_shape
        (appendMessage
          { ID := id, Name := name, Messages := [], Model := model, MaxTokens := maxTokens,
            TokenCount := 0, Created := created, LastUsed := lastUsed }
          "system" systemPrompt now)
      unfold AddMessage
      rw [heq, h0 (by simp [appendMessage]), evict_zero]
      rfl
    · unfold NewSmartConversation
      rw [if_pos h]
      obtain ⟨k, heq, _, h0⟩ := trimToFitContext_shape
        (appendMessage
          { ID := id, Name := name, Messages := [], Model := model, MaxTokens := maxTokens,
            TokenCount := 0, Created := created, LastUsed := lastUsed }
          "system" systemPrompt now)
      unfold AddMessage
      rw [heq, h0 (by simp [appendMessage]), evict_zero]
      simp [appendMessage, estimateTokens_eq]

/-- C10 (snapshot for inference): `getMessagesForAPI` returns as many messages
as `Messages` holds, the `i`-th with the role and content of the `i`-th
message and the zero time, in the same order, and leaves the conversation
(`Messages` and `TokenCount` included) as it was. -/
theorem snapshot_for_inference (c : SmartConversation) :
    (getMessagesForAPI c).1.length = c.Messages.length ∧
    (∀ i : Nat, (getMessagesForAPI c).1[i]?
      = (c.Messages[i]?).map
          (fun m => ({ Role := m.Role, Content := m.Content, Time := 0 } : ChatMessage))) ∧
    (getMessagesForAPI c).2 = c ∧
    (getMessagesForAPI c).2.Messages = c.Messages ∧
    (getMessagesForAPI c).2.TokenCount = c.TokenCount := by
  refine ⟨?_, ?_, rfl, rfl, rfl⟩
  · rw [getMessagesForAPI_fst, List.length_map]
  · intro i
    rw [getMessagesForAPI_fst, List.getElem?_map]
    rfl

/-! ## Lemmas on streamed replies -/

/-- On a body whose fragments all decode, the decoding loop returns what it
had accumulated followed by the contents up to the first `done`. -/
theorem streamLoop_ok (frags : List OllamaStreamResponse) :
    ∀ acc : String,
      streamLoop (frags.map Except.ok) acc = .ok (acc ++ concatContents (untilDone frags)) := by
  induction frags with
  | nil => intro acc; simp [streamLoop, untilDone, concatContents]
  | cons f rest ih =>
    intro acc
    by_cases hd : f.Done = true
    · simp [streamLoop, untilDone, concatContents, hd]
    · simp [streamLoop, untilDone, concatContents, hd, ih, String.append_assoc]

theorem untilDone_of_none_done (frags : List OllamaStreamResponse)
    (h : ∀ f ∈ frags, f.Done = false) : untilDone frags = frags := by
  induction frags with
  | nil => rfl
  | cons f rest ih =>
    have hf : f.Done = false := h f (List.mem_cons_self _ _)
    simp only [untilDone, hf]
    rw [ih (fun g hg => h g (List.mem_cons_of_mem _ hg))]
    rfl

theorem untilDone_prefix (frags : List OllamaStreamResponse) :
    List.IsPrefix (untilDone frags) frags := by
  induction frags with
  | nil => exact List.prefix_refl _
  | cons f rest ih =>
    by_cases hd : f.Done = true
    · simp [untilDone, hd]
    · simp only [untilDone, hd]
      exact (List.prefix_cons_inj f).mpr ih

/-! ## Lemmas on the registry -/

theorem mapSet_any (m : List (String × ConvPtr)) (k : String) (v : ConvPtr) :
    (mapSet m k v).any (fun p => p.1 == k) = true := by
  unfold mapSet
  split
  · rename_i h
    simp only [List.any_eq_true, List.mem_map] at h ⊢
    obtain ⟨p, hp, hk⟩ := h
    exact ⟨(k, v), ⟨p, hp, by simp [hk]⟩, by simp⟩
  · simp

theorem mapGet_replace (m : List (String × ConvPtr)) (k : String) (v : ConvPtr)
    (h : m.any (fun p => p.1 == k) = true) :
    mapGet (m.map (fun p => if p.1 == k then (k, v) else p)) k = v := by
  induction m with
  | nil => simp at h
  | cons p t ih =>
    by_cases hp : p.1 = k
    · simp [mapGet, hp]
    · have ht : t.any (fun p => p.1 == k) = true := by
        simpa [hp] using h
      have := ih ht
      simp only [mapGet, List.map_cons] at this ⊢
      simpa [hp, List.find?_cons] using this

theorem mapGet_append_new (m : List (String × ConvPtr)) (k : String) (v : ConvPtr)
    (h : ¬ m.any (fun p => p.1 == k) = true) :
    mapGet (m ++ [(k, v)]) k = v := by
  induction m with
  | nil => simp [mapGet]
  | cons p t ih =>
    have hp : ¬ p.1 = k := by
      intro hp; apply h; simp [hp]
    have ht : ¬ t.any (fun p => p.1 == k) = true := by
      intro ht; apply h
      simp only [List.any_cons, ht, Bool.or_true]
    have := ih ht
    simp only [mapGet, List.cons_append] at this ⊢
    simpa [hp, List.find?_cons] using this

/-- Reading a key just written gives the value written. -/
theorem mapGet_mapSet (m : List (String × ConvPtr)) (k : String) (v : ConvPtr) :
    mapGet (mapSet m k v) k = v := by
  unfold mapSet
  split
  · rename_i h; exact mapGet_replace m k v h
  · rename_i h; exact mapGet_append_new m k v h

/-- Writing a key that is present leaves the set of keys as it is. -/
theorem mapSet_keys (m : List (String × ConvPtr)) (k : String) (v : ConvPtr)
    (h : m.any (fun p => p.1 == k) = true) :
    (mapSet m k v).map Prod.fst = m.map Prod.fst := by
  unfold mapSet
  rw [if_pos h, List.map_map]
  apply List.map_congr_left
  intro p _
  by_cases hp : p.1 = k
  · simp [hp]
  · simp [hp]

theorem deref_append_new (heap : List SmartConversation) (c : SmartConversation) :
    deref (heap ++ [c]) (some heap.length) = some c := by
  simp [deref]

theorem deref_store_isSome (heap : List SmartConversation) (p : ConvPtr)
    (c0 c : SmartConversation) (h : deref heap p = some c0) :
    deref (store heap p c) p = some c := by
  cases p with
  | none => simp [deref] at h
  | some a =>
    simp only [deref] at h
    have ha : a < heap.length := by
      by_contra hn
      rw [List.getElem?_eq_none (by omega)] at h
      exact absurd h (by simp)
    simp [deref, store, ha]

/-- What `new` does to the chatbot, whatever the state. -/
theorem handleCommand_new (lower : Char → Char) (clock : Clock) (bot : InteractiveChatbot)
    (command : String) (args : List String)
    (hparts : Fields (ToLower lower command) = "new" :: args) :
    handleCommand lower clock bot command = Outcome.returned true
      { bot with
        heap := bot.heap ++ [NewSmartConversation ("conv_" ++ toString clock.unix)
          (if args ≠ [] then Join args " " else "Conversation " ++ clock.hhmm)
          bot.config.Model bot.config.SystemPrompt bot.config.MaxTokens
          clock.created clock.lastUsed clock.now]
        conversations := mapSet bot.conversations ("conv_" ++ toString clock.unix)
          (some bot.heap.length)
        conversation := some bot.heap.length
        currentID := "conv_" ++ toString clock.unix } := by
  unfold handleCommand
  simp only [hparts]
  rw [if_pos True.intro, mapGet_mapSet]
  cases args with
  | nil => simp
  | cons a t => simp

/-- One returning call of `handleCommand` keeps the registry invariant. -/
theorem handleCommand_inv (lower : Char → Char) (clock : Clock) (bot bot1 : InteractiveChatbot)
    (command : String) (v : Bool) (hinv : registryInv bot)
    (h : handleCommand lower clock bot command = Outcome.returned v bot1) :
    registryInv bot1 := by
  cases hparts : Fields (ToLower lower command) with
  | nil => simp [handleCommand, hparts] at h
  | cons cmd args =>
    by_cases hnew : cmd = "new"
    · subst hnew
      rw [handleCommand_new lower clock bot command args hparts] at h
      injection h with _ hb
      subst hb
      exact ⟨mapSet_any _ _ _, mapGet_mapSet _ _ _, by simp [deref_append_new]⟩
    · by_cases hclear : cmd = "clear"
      · subst hclear
        obtain ⟨h1, h2, h3⟩ := hinv
        cases hd : deref bot.heap bot.conversation with
        | none => rw [hd] at h3; simp at h3
        | some c0 =>
          unfold handleCommand at h
          simp only [hparts] at h
          rw [if_pos True.intro] at h
          simp only [hd] at h
          injection h with _ hb
          subst hb
          exact ⟨h1, h2, by simp [deref_store_isSome _ _ c0 _ hd]⟩
      · by_cases hstream : cmd = "stream"
        · subst hstream
          unfold handleCommand at h
          simp only [hparts] at h
          rw [if_pos True.intro] at h
          injection h with _ hb
          subst hb
          exact hinv
        · have hsame : bot1 = bot := by
            unfold handleCommand at h
            simp only [hparts, hnew, hclear, hstream, if_false] at h
            repeat' split at h
            all_goals first
              | (injection h with _ hb; exact hb.symm)
              | exact absurd h (by simp)
          rw [hsame]
          exact hinv

theorem runCommands_inv (lower : Char → Char) (cmds : List (Clock × String)) :
    ∀ bot bot1 : InteractiveChatbot, registryInv bot →
      runCommands lower bot cmds = some bot1 → registryInv bot1 := by
  induction cmds with
  | nil =>
    intro bot bot1 hinv h
    simp only [runCommands, Option.some.injEq] at h
    rw [← h]; exact hinv
  | cons a rest ih =>
    intro bot bot1 hinv h
    obtain ⟨clock, command⟩ := a
    simp only [runCommands] at h
    cases hc : handleCommand lower clock bot command with
    | returned v b =>
      rw [hc] at h
      exact ih b bot1 (handleCommand_inv lower clock bot b command v hinv hc) h
    | exited b => rw [hc] at h; simp at h
    | panicked => rw [hc] at h; simp at h

theorem NewInteractiveChatBot_inv (model systemPrompt : String) (created lastUsed now : GoTime) :
    registryInv (NewInteractiveChatBot model systemPrompt created lastUsed now) := by
  refine ⟨?_, ?_, ?_⟩ <;> simp [NewInteractiveChatBot, deref, mapGet, mapSet]

/-! ## The claims on the gateway and the commands -/

/-- C11 (streaming concatenation): when the request is answered and every
fragment of the body decodes, `SendToOllamaStream` reports no error, and the
content it returns and appends as the assistant message is the concatenation,
in arrival order and with no separator, of the contents of the fragments up
to and including the first with `done = true` (of all of them when none has
it); for "Hel", "lo, ", "world" with `done` on the last only it is
"Hello, world". -/
theorem streaming_concatenation
    (post : OllamaRequest → Except String (HttpResponse StreamBody))
    (c : SmartConversation) (now : GoTime) (resp : HttpResponse StreamBody)
    (frags : List OllamaStreamResponse)
    (hpost : post { Model := c.Model, Messages := (getMessagesForAPI c).1, Stream := true }
      = .ok resp)
    (hbody : resp.Body = frags.map Except.ok) :
    (SendToOllamaStream post c now).err = none ∧
    (SendToOllamaStream post c now).response = concatContents (untilDone frags) ∧
    (SendToOllamaStream post c now).conv
      = AddMessage c "assistant" (concatContents (untilDone frags)) now ∧
    (SendToOllamaStream post c now).conv.Messages.getLast?
      = some (ChatMessage.mk "assistant" (concatContents (untilDone frags)) now) ∧
    List.IsPrefix (untilDone frags) frags ∧
    ((∀ f ∈ frags, f.Done = false) → untilDone frags = frags) ∧
    concatContents (untilDone helloFragments) = "Hello, world" := by
  have hloop : streamLoop resp.Body "" = .ok (concatContents (untilDone frags)) := by
    rw [hbody, streamLoop_ok]
    simp
  have hout : SendToOllamaStream post c now
      = { response := concatContents (untilDone frags), err := none,
          conv := AddMessage c "assistant" (concatContents (untilDone frags)) now,
          posted := { Model := c.Model, Messages := (getMessagesForAPI c).1, Stream := true } } := by
    simp only [SendToOllamaStream, getMessagesForAPI] at hpost ⊢
    rw [hpost]
    simp only [hloop]
  rw [hout]
  exact ⟨rfl, rfl, rfl, AddMessage_getLast _ _ _ _, untilDone_prefix frags,
    untilDone_of_none_done frags, by decide⟩

/-- C11, at the scenario transcript and the three fragments of P4. -/
theorem streaming_concatenation_witness :
    (SendToOllamaStream replyingGateway.stream scenarioConv 5).response
      = concatContents (untilDone helloFragments) ∧
    concatContents (untilDone helloFragments) = "Hello, world" :=
  ⟨(streaming_concatenation replyingGateway.stream scenarioConv 5
      { StatusCode := 200, Body := helloFragments.map Except.ok } helloFragments rfl rfl).2.1,
   by decide⟩

/-- C12 (commit on success only): whenever `SendToOllamaBatch` or
`SendToOllamaStream` returns an error, for any gateway outcome (a failed
request, or a body that fails to decode, also after fragments were read), the
conversation is what it was at the call: `Messages` and `TokenCount` are
unchanged and no assistant message, full or partial, is added. -/
theorem commit_on_success_only
    (postBatch : OllamaRequest → Except String (HttpResponse BatchBody))
    (postStream : OllamaRequest → Except String (HttpResponse StreamBody))
    (c : SmartConversation) (now : GoTime) :
    ((SendToOllamaBatch postBatch c now).err ≠ none →
      (SendToOllamaBatch postBatch c now).conv = c ∧
      (SendToOllamaBatch postBatch c now).conv.Messages = c.Messages ∧
      (SendToOllamaBatch postBatch c now).conv.TokenCount = c.TokenCount) ∧
    ((SendToOllamaStream postStream c now).err ≠ none →
      (SendToOllamaStream postStream c now).conv = c ∧
      (SendToOllamaStream postStream c now).conv.Messages = c.Messages ∧
      (SendToOllamaStream postStream c now).conv.TokenCount = c.TokenCount) := by
  constructor
  · intro herr
    have hc : (SendToOllamaBatch postBatch c now).conv = c := by
      unfold SendToOllamaBatch at herr ⊢
      simp only [] at herr ⊢
      split
      · rfl
      · rename_i resp hresp
        rw [hresp] at herr
        simp only [] at herr
        split
        · rfl
        · rename_i response hbody
          rw [hbody] at herr
          exact absurd rfl herr
    exact ⟨hc, by rw [hc], by rw [hc]⟩
  · intro herr
    have hc : (SendToOllamaStream postStream c now).conv = c := by
      unfold SendToOllamaStream at herr ⊢
      simp only [getMessagesForAPI] at herr ⊢
      split
      · rfl
      · rename_i resp hresp
        rw [hresp] at herr
        simp only [] at herr
        split
        · rfl
        · rename_i response hbody
          rw [hbody] at herr
          exact absurd rfl herr
    exact ⟨hc, by rw [hc], by rw [hc]⟩

/-- C12, at a body that does not decode (batch) and at a stream that breaks
after its first fragment. -/
theorem commit_on_success_only_witness :
    (SendToOllamaBatch breakingGateway.batch scenarioConv 5).conv = scenarioConv ∧
    (SendToOllamaStream breakingGateway.stream scenarioConv 5).conv = scenarioConv :=
  ⟨((commit_on_success_only breakingGateway.batch breakingGateway.stream scenarioConv 5).1
      (by decide)).1,
   ((commit_on_success_only breakingGateway.batch breakingGateway.stream scenarioConv 5).2
      (by decide)).1⟩

/-- C13, on the code: for a response with status 500 whose body decodes,
`SendToOllamaBatch` and `SendToOllamaStream` report no error and append an
assistant message (here with empty content), while `sendOllamaMessage` of the
web client, given the same status, returns an error. -/
theorem status_code_not_checked :
    (SendToOllamaBatch failingStatusGateway.batch scenarioConv 5).err = none ∧
    (SendToOllamaBatch failingStatusGateway.batch scenarioConv 5).conv.Messages
      = scenarioConv.Messages ++ [{ Role := "assistant", Content := "", Time := 5 }] ∧
    (SendToOllamaStream failingStatusGateway.stream scenarioConv 5).err = none ∧
    (SendToOllamaStream failingStatusGateway.stream scenarioConv 5).conv.Messages
      = scenarioConv.Messages ++ [{ Role := "assistant", Content := "", Time := 5 }] ∧
    Services.sendOllamaMessage { provider := "ollama", baseURL := "http://localhost:11434", model := "m" }
        (fun _ => .ok { Status := "500 Internal Server Error", StatusCode := 500,
                        Body := .ok { Message := { Role := "", Content := "" } } })
        []
      = ("", some "API request failed with status: 500 Internal Server Error") := by
  decide

/-- C17, on the code: the line `save` with no file name makes `handleCommand`
panic (the index `parts[1]` is read after the usage message), while `save`
with a file name returns `true`. -/
theorem save_without_name_panics :
    handleCommand Char.toLower sampleClock freshBot "save" = Outcome.panicked ∧
    handleCommand Char.toLower sampleClock freshBot "save notes" = Outcome.returned true freshBot := by
  decide

/-- C14 (registry invariant): in the state returned by
`NewInteractiveChatBot` the current id is "default", it is a key of
`conversations` and `bot.conversation` is the pointer stored under it, to a
transcript on the heap; the same holds of the current id after any finite run
of `handleCommand` calls that return. -/
theorem registry_invariant (model systemPrompt : String) (created lastUsed now : GoTime)
    (lower : Char → Char) (cmds : List (Clock × String)) (bot1 : InteractiveChatbot) :
    (NewInteractiveChatBot model systemPrompt created lastUsed now).currentID = "default" ∧
    registryInv (NewInteractiveChatBot model systemPrompt created lastUsed now) ∧
    (runCommands lower (NewInteractiveChatBot model systemPrompt created lastUsed now) cmds
        = some bot1 →
      registryInv bot1) :=
  ⟨rfl, NewInteractiveChatBot_inv model systemPrompt created lastUsed now,
   runCommands_inv lower cmds _ bot1
     (NewInteractiveChatBot_inv model systemPrompt created lastUsed now)⟩

/-- C14, at a run of `new`, `clear`, `stream`, `list` and a line that is no
command. -/
theorem registry_invariant_witness :
    runCommands Char.toLower freshBot sampleCommands = some botAfterCommands ∧
    registryInv botAfterCommands :=
  ⟨by decide,
   (registry_invariant "llama3.1:8b"
      "You are a helpful assistant. Your name is Taconite. Be informative but concise and friendly."
      0 0 1 Char.toLower sampleCommands botAfterCommands).2.2 (by decide)⟩

/-- C15, as stated, fails: with the id `conv_1700000000` present and holding
three messages, `new` at the same clock second returns `true` and the
transcript under that id afterwards holds one message. -/
theorem duplicate_id_counterexample :
    botAfterExchange.conversations.any (fun p => p.1 == "conv_1700000000") = true ∧
    (deref botAfterExchange.heap (mapGet botAfterExchange.conversations "conv_1700000000")).map
        (fun c => c.Messages.length) = some 3 ∧
    ∃ bot, handleCommand Char.toLower sampleClock botAfterExchange "new"
        = Outcome.returned true bot ∧
      (deref bot.heap (mapGet bot.conversations "conv_1700000000")).map
        (fun c => c.Messages.length) = some 1 := by
  refine ⟨by decide, by decide, _, rfl, by decide⟩

/-- C15, amended: when the id `conv_<unix seconds>` of a `new` command is
already a key of `conversations`, the command succeeds: `handleCommand`
returns `true`, the keys are unchanged, and the entry under that id is
replaced by a pointer to a fresh transcript from `NewSmartConversation`,
which becomes the current conversation. -/
theorem new_replaces_duplicate (lower : Char → Char) (clock : Clock) (bot : InteractiveChatbot)
    (command : String) (args : List String)
    (hparts : Fields (ToLower lower command) = "new" :: args)
    (hdup : bot.conversations.any (fun p => p.1 == "conv_" ++ toString clock.unix) = true) :
    ∃ bot1, handleCommand lower clock bot command = Outcome.returned true bot1 ∧
      bot1.conversations.map Prod.fst = bot.conversations.map Prod.fst ∧
      bot1.currentID = "conv_" ++ toString clock.unix ∧
      mapGet bot1.conversations bot1.currentID = some bot.heap.length ∧
      bot1.conversation = some bot.heap.length ∧
      deref bot1.heap bot1.conversation
        = some (NewSmartConversation ("conv_" ++ toString clock.unix)
            (if args ≠ [] then Join args " " else "Conversation " ++ clock.hhmm)
            bot.config.Model bot.config.SystemPrompt bot.config.MaxTokens
            clock.created clock.lastUsed clock.now) :=
  ⟨_, handleCommand_new lower clock bot command args hparts,
   mapSet_keys _ _ _ hdup, rfl, mapGet_mapSet _ _ _, rfl, deref_append_new _ _⟩

/-- C15 amended, at the chatbot that already holds `conv_1700000000`. -/
theorem new_replaces_duplicate_witness :
    ∃ bot1, handleCommand Char.toLower sampleClock botAfterExchange "new"
        = Outcome.returned true bot1 ∧
      bot1.conversations.map Prod.fst = botAfterExchange.conversations.map Prod.fst ∧
      bot1.conversation = some 2 := by
  obtain ⟨bot1, h1, h2, _, _, h5, _⟩ :=
    new_replaces_duplicate Char.toLower sampleClock botAfterExchange "new" []
      (by decide) (by decide)
  exact ⟨bot1, h1, h2, h5⟩

end Gobot
